import Mathlib

/-!
Verification of the sonovia real-time audio feature-extraction pipeline and
playback state machine, shallowly embedded from the two hook implementations
(`src/hooks/useAudioAnalyzer.ts`, the streaming variant, and the unnamed
`useSafariAudioAnalyzer` file, the decode-buffer variant).

JavaScript numbers are modelled as exact rationals (ℚ).  The one place where
IEEE semantics is observable on the inputs the claims quantify over is the
division `sum / frequencyData.length / 255` on an empty buffer, where
JavaScript produces `0/0 = NaN`; that value is modelled as `none` of an
`Option ℚ`.  Byte buffers are `List ℕ` (entries 0..255, the exact range is
irrelevant to the claims).
-/

namespace Sonovia

/-- Rolling state of the feature extractor: `prevBeatTimeRef`,
`beatThresholdRef` and `beatHistoryRef` in both hook variants. -/
structure BeatState where
  prevBeatTime : ℚ
  beatThreshold : ℚ
  beatHistory : List ℚ
deriving DecidableEq, Repr

/-- The refs right after initialization: `prevBeatTimeRef = 0`,
`beatThresholdRef = 0.15`, `beatHistoryRef = []`. -/
def initialBeatState : BeatState :=
  { prevBeatTime := 0, beatThreshold := 3/20, beatHistory := [] }

/-- `sum / frequencyData.length / 255` from `analyzeAudio`.  On an empty
buffer JavaScript computes `0/0 = NaN`, modelled as `none`. -/
def volumeOf (freq : List ℕ) : Option ℚ :=
  if freq.length = 0 then none
  else some (((freq.sum : ℚ) / (freq.length : ℚ)) / 255)

/-- The ternary `count > 0 ? sum / count / 255 : 0` used for each band. -/
def bandEnergy (sum cnt : ℕ) : ℚ :=
  if 0 < cnt then ((sum : ℚ) / (cnt : ℚ)) / 255 else 0

/-- One iteration of the per-bin loop of `analyzeAudio`: an
`if / else if / else if` chain adding the bin value and bumping the count
of the first index range (bass, mid, high) containing the bin index. -/
def bandStep (bLo bHi mLo mHi hLo hHi : ℤ)
    (acc : (ℕ × ℕ) × (ℕ × ℕ) × (ℕ × ℕ)) (p : ℕ × ℕ) :
    (ℕ × ℕ) × (ℕ × ℕ) × (ℕ × ℕ) :=
  if bLo ≤ (p.1 : ℤ) ∧ (p.1 : ℤ) ≤ bHi then
    ((acc.1.1 + p.2, acc.1.2 + 1), acc.2.1, acc.2.2)
  else if mLo ≤ (p.1 : ℤ) ∧ (p.1 : ℤ) ≤ mHi then
    (acc.1, (acc.2.1.1 + p.2, acc.2.1.2 + 1), acc.2.2)
  else if hLo ≤ (p.1 : ℤ) ∧ (p.1 : ℤ) ≤ hHi then
    (acc.1, acc.2.1, (acc.2.2.1 + p.2, acc.2.2.2 + 1))
  else acc

/-- The per-bin loop of `analyzeAudio` over the indexed bins. -/
def bandAccum (bLo bHi mLo mHi hLo hHi : ℤ)
    (freq : List (ℕ × ℕ)) : (ℕ × ℕ) × (ℕ × ℕ) × (ℕ × ℕ) :=
  freq.foldl (bandStep bLo bHi mLo mHi hLo hHi) ((0, 0), (0, 0), (0, 0))

/-- Band energies of `analyzeAudio`: ranges `[⌊20/binSize⌋, ⌊150/binSize⌋]`,
`[⌊150/binSize⌋, ⌊2000/binSize⌋]`, `[⌊2000/binSize⌋, ⌊20000/binSize⌋]` with
`binSize = sampleRate / fftSize`, each bin classified by the first matching
range, each band averaged and normalized by 255 (0 for an empty band). -/
def bandsOf (freq : List ℕ) (sampleRate fftSize : ℚ) : ℚ × ℚ × ℚ :=
  let binSize := sampleRate / fftSize
  let bLo := ⌊(20 : ℚ) / binSize⌋
  let bHi := ⌊(150 : ℚ) / binSize⌋
  let mLo := ⌊(150 : ℚ) / binSize⌋
  let mHi := ⌊(2000 : ℚ) / binSize⌋
  let hLo := ⌊(2000 : ℚ) / binSize⌋
  let hHi := ⌊(20000 : ℚ) / binSize⌋
  let acc := bandAccum bLo bHi mLo mHi hLo hHi freq.enum
  (bandEnergy acc.1.1 acc.1.2, bandEnergy acc.2.1.1 acc.2.1.2,
   bandEnergy acc.2.2.1 acc.2.2.2)

/-- The beat-history append of `analyzeAudio`: if the history is nonempty,
append the accepted time only when it is more than 0.3 s after the last
recorded entry, shifting the oldest entry out when the length passes 20;
an empty history records the time unconditionally. -/
def pushBeat (hist : List ℚ) (t : ℚ) : List ℚ :=
  if 0 < hist.length then
    if t - hist.getLastD 0 > 3/10 then
      if 20 < (hist ++ [t]).length then (hist ++ [t]).tail else hist ++ [t]
    else hist
  else [t]

/-- Beat acceptance of `analyzeAudio`: a beat fires when
`bassEnergy > beatThresholdRef` and more than 0.3 s of audio-context time
elapsed since the previously accepted beat; on acceptance the time is stored
in `prevBeatTimeRef` and recorded via `pushBeat`. -/
def stepBeat (s : BeatState) (bassEnergy now : ℚ) : Bool × BeatState :=
  if bassEnergy > s.beatThreshold ∧ now - s.prevBeatTime > 3/10 then
    (true, { prevBeatTime := now, beatThreshold := s.beatThreshold,
             beatHistory := pushBeat s.beatHistory now })
  else (false, s)

/-- `intervals[i] = history[i+1] - history[i]` from the BPM block. -/
def intervalsOf (l : List ℚ) : List ℚ :=
  l.tail.zipWith (fun a b => a - b) l

/-- `avgInterval = intervals.reduce(sum) / intervals.length`. -/
def avgIntervalOf (l : List ℚ) : ℚ :=
  (intervalsOf l).sum / ((intervalsOf l).length : ℚ)

/-- BPM block of the streaming variant: when the history has more than 3
entries, `Math.round(60 / avgInterval)` accepted only inside [50, 200].
(With `avgInterval = 0` JavaScript rounds `Infinity`, which fails the range
test exactly as rounding the Lean junk value `60 / 0 = 0` does.) -/
def computeBpm (hist : List ℚ) : Option ℤ :=
  if 3 < hist.length then
    if 50 ≤ round ((60 : ℚ) / avgIntervalOf hist) ∧
        round ((60 : ℚ) / avgIntervalOf hist) ≤ 200 then
      some (round ((60 : ℚ) / avgIntervalOf hist))
    else none
  else none

/-- BPM block of the decode-buffer variant: identical except for the extra
`if (avgInterval > 0)` guard around the rounding. -/
def computeBpmGuarded (hist : List ℚ) : Option ℤ :=
  if 3 < hist.length then
    if 0 < avgIntervalOf hist then
      if 50 ≤ round ((60 : ℚ) / avgIntervalOf hist) ∧
          round ((60 : ℚ) / avgIntervalOf hist) ≤ 200 then
        some (round ((60 : ℚ) / avgIntervalOf hist))
      else none
    else none
  else none

/-- Per-frame input of `analyzeAudio`: the two analyzer buffers, the context
sample rate, the analyzer fft size and the audio-context clock. -/
structure FrameInput where
  freq : List ℕ
  time : List ℕ
  sampleRate : ℚ
  fftSize : ℚ
  now : ℚ
deriving DecidableEq, Repr

/-- Feature fields written into the published snapshot by one
`analyzeAudio` frame. -/
structure FrameOutput where
  frequencyData : List ℕ
  timeData : List ℕ
  volume : Option ℚ
  bassEnergy : ℚ
  midEnergy : ℚ
  highEnergy : ℚ
  beat : Bool
  bpm : Option ℤ
deriving DecidableEq, Repr

/-- One frame of `analyzeAudio` in the streaming variant: volume, band
energies, beat acceptance and history update, BPM from the updated history,
then the adaptive-threshold update `0.15 + bassEnergy * 0.1`. -/
def analyzeFrameStreaming (s : BeatState) (inp : FrameInput) :
    FrameOutput × BeatState :=
  let volume := volumeOf inp.freq
  let bands := bandsOf inp.freq inp.sampleRate inp.fftSize
  let step := stepBeat s bands.1 inp.now
  let bpm := computeBpm step.2.beatHistory
  let s2 := { step.2 with beatThreshold := 3/20 + bands.1 / 10 }
  ({ frequencyData := inp.freq, timeData := inp.time, volume := volume,
     bassEnergy := bands.1, midEnergy := bands.2.1, highEnergy := bands.2.2,
     beat := step.1, bpm := bpm }, s2)

/-- One frame of `analyzeAudio` in the decode-buffer variant: the same
computation with `computeBpmGuarded` in place of `computeBpm`. -/
def analyzeFrameSafari (s : BeatState) (inp : FrameInput) :
    FrameOutput × BeatState :=
  let volume := volumeOf inp.freq
  let bands := bandsOf inp.freq inp.sampleRate inp.fftSize
  let step := stepBeat s bands.1 inp.now
  let bpm := computeBpmGuarded step.2.beatHistory
  let s2 := { step.2 with beatThreshold := 3/20 + bands.1 / 10 }
  ({ frequencyData := inp.freq, timeData := inp.time, volume := volume,
     bassEnergy := bands.1, midEnergy := bands.2.1, highEnergy := bands.2.2,
     beat := step.1, bpm := bpm }, s2)

/-- Run a sequence of `analyzeAudio` frames (streaming variant), collecting
the audio-clock times of the accepted beats in order. -/
def runAnalyze : BeatState → List FrameInput → BeatState × List ℚ
  | s, [] => (s, [])
  | s, f :: fs =>
      let step := analyzeFrameStreaming s f
      let rest := runAnalyze step.2 fs
      (rest.1, (if step.1.beat then [f.now] else []) ++ rest.2)

/-- The beat-history invariant: at most 20 entries, consecutive entries more
than 0.3 s apart (hence strictly increasing). -/
def historyInv (l : List ℚ) : Prop :=
  l.length ≤ 20 ∧ l.Chain' (fun a b => b - a > 3/10)

instance historyInvDecidable (l : List ℚ) : Decidable (historyInv l) := by
  unfold historyInv
  infer_instance

/-! ## Playback controller, streaming variant (`useAudioAnalyzer`)

The `HTMLAudioElement` is modelled by its observable fields; per the HTML
media specification, assigning `currentTime` runs the seek algorithm, which
clamps the target into `[0, duration]`, and `play()` / `pause()` toggle
`paused`.  Asynchronous outcomes that the browser decides (metadata load,
microphone permission) are oracle parameters of the operations.  Operations
model the success of `element.play()` after a successful metadata load, and
transitional `isTurningOffMicMode` toggles are modelled by their net effect
(the flag ends `false`). -/

/-- Observable state of the `HTMLAudioElement` held in `audioElementRef`. -/
structure StreamElem where
  src : String
  currentTime : ℚ
  duration : ℚ
  paused : Bool
  volume : ℚ
deriving DecidableEq, Repr

/-- The snapshot fields of `audioData` that the controller operations of the
streaming variant write (feature fields are owned by `analyzeAudio`). -/
structure StreamSnap where
  isMicMode : Bool
  isPlaying : Bool
  isTurningOffMicMode : Bool
deriving DecidableEq, Repr

/-- `lastAudioStateRef`: the file session saved before switching to the
microphone. -/
structure SavedAudioState where
  src : String
  currentTime : ℚ
  isPlaying : Bool
deriving DecidableEq, Repr

/-- State owned by the streaming-variant hook. -/
structure StreamingState where
  elem : StreamElem
  sourceConnected : Bool
  analyzerToDest : Bool
  micActive : Bool
  lastAudioState : Option SavedAudioState
  snap : StreamSnap
  beatState : BeatState
deriving DecidableEq, Repr

/-- `loadAudio(audioUrl)`, streaming variant.  `result` is the metadata-load
outcome: `some duration` on success, `none` when the error event rejects the
awaited promise.  The body stops an active microphone, pauses the current
element when it has a src, disconnects the source node and the analyzer, and
only then awaits the new element; on failure the error is logged and the
catch block does nothing further, on success the element is replaced, beat
history and prev-beat time reset, graph rewired and the new element
auto-played. -/
def loadAudioStreaming (s : StreamingState) (url : String)
    (result : Option ℚ) : StreamingState :=
  let s0 := if s.micActive then
      { s with micActive := false,
               snap := { s.snap with isTurningOffMicMode := false } }
    else s
  let s1 := if s0.elem.src ≠ "" then
      { s0 with elem := { s0.elem with paused := true } }
    else s0
  let s2 := { s1 with sourceConnected := false, analyzerToDest := false }
  match result with
  | none => s2
  | some dur =>
      { s2 with
        elem := { src := url, currentTime := 0, duration := dur,
                  paused := false, volume := s2.elem.volume },
        beatState := { prevBeatTime := 0,
                       beatThreshold := s2.beatState.beatThreshold,
                       beatHistory := [] },
        sourceConnected := true, analyzerToDest := true,
        snap := { s2.snap with isMicMode := false } }

/-- `startMicrophoneInput()`, streaming variant.  `granted` is the
`getUserMedia` outcome.  Returns the new state and whether the user-facing
alert fired.  The try block first saves the element state into
`lastAudioStateRef` and pauses the element, stops old mic tracks,
disconnects the source node and the analyzer; on grant the mic source is
connected to the analyzer (which stays detached from the destination) and
the snapshot enters mic mode; on denial the catch block only logs and
alerts. -/
def startMicStreaming (s : StreamingState) (granted : Bool) :
    StreamingState × Bool :=
  let saved : SavedAudioState :=
    { src := s.elem.src, currentTime := s.elem.currentTime,
      isPlaying := !s.elem.paused }
  let s1 := { s with elem := { s.elem with paused := true },
                     lastAudioState := some saved,
                     micActive := false,
                     sourceConnected := false,
                     analyzerToDest := false }
  if granted then
    ({ s1 with micActive := true, sourceConnected := true,
               snap := { s1.snap with isMicMode := true, isPlaying := true } },
     false)
  else (s1, true)

/-- `stopMicrophoneInput()`, streaming variant.  `reload` is the metadata
outcome of the inner `loadAudio` call on the saved src.  After stopping the
mic tracks (with the transitional flag toggle) and disconnecting the mic
source, the snapshot leaves mic mode; if a saved session with a nonempty src
exists it is reloaded, the element is played when the saved state was
playing, and the element's `currentTime` is then set to the saved value. -/
def stopMicStreaming (s : StreamingState) (reload : Option ℚ) :
    StreamingState :=
  let s1 := if s.micActive then
      { s with micActive := false,
               snap := { s.snap with isTurningOffMicMode := false } }
    else s
  let s2 := { s1 with sourceConnected := false,
                      snap := { s1.snap with isMicMode := false,
                                             isPlaying := false } }
  match s2.lastAudioState with
  | some last =>
      if last.src ≠ "" then
        let s3 := loadAudioStreaming s2 last.src reload
        let s4 := if last.isPlaying then
            { s3 with elem := { s3.elem with paused := false } }
          else s3
        { s4 with elem := { s4.elem with currentTime := last.currentTime },
                  lastAudioState := none }
      else s2
  | none => s2

/-- `play()`, streaming variant: `element.play()`. -/
def playStreaming (s : StreamingState) : StreamingState :=
  { s with elem := { s.elem with paused := false } }

/-- `pause()`, streaming variant: `element.pause()`. -/
def pauseStreaming (s : StreamingState) : StreamingState :=
  { s with elem := { s.elem with paused := true } }

/-- `setVolume(level)`, streaming variant:
`element.volume = Math.max(0, Math.min(1, level))`. -/
def setVolumeStreaming (s : StreamingState) (level : ℚ) : StreamingState :=
  { s with elem := { s.elem with volume := max 0 (min 1 level) } }

/-- `seek(time)`, streaming variant: `element.currentTime = time`; the
element's setter clamps the target into `[0, duration]` (HTML media seek
algorithm). -/
def seekStreaming (s : StreamingState) (t : ℚ) : StreamingState :=
  { s with elem := { s.elem with
      currentTime := max 0 (min t s.elem.duration) } }

/-! ## Playback controller, decode-buffer variant (`useSafariAudioAnalyzer`)

`AudioBufferSourceNode` scheduling is modelled by `activeNode` (whether
`activeAudioBufferSourceNodeRef` holds a node) plus `liveNodes`, the number
of started and not yet stopped buffer source nodes — `start` increments it,
`stop` on the held node decrements it.  The decoded `AudioBuffer` is
represented by its duration.  Operation parameters `now` (the audio-context
clock when the operation runs), `granted` and fetch/decode outcomes are
oracles, as in the streaming model. -/

/-- Snapshot fields of `audioData` written by the decode-buffer controller
operations. -/
structure SafariSnap where
  isMicMode : Bool
  isPlaying : Bool
  isTurningOffMicMode : Bool
  currentTime : ℚ
  duration : ℚ
deriving DecidableEq, Repr

/-- State owned by the decode-buffer-variant hook. -/
structure SafariState where
  decodedDuration : Option ℚ
  activeNode : Bool
  liveNodes : ℕ
  playbackStartTime : ℚ
  startOffset : ℚ
  currentAudioUrl : Option String
  micActive : Bool
  gainToAnalyzer : Bool
  analyzerToDest : Bool
  gainValue : ℚ
  lastAudioState : Option SavedAudioState
  snap : SafariSnap
  beatState : BeatState
deriving DecidableEq, Repr

/-- `play()`, decode-buffer variant: a no-op in mic mode or with no decoded
buffer; otherwise the old node (if any) is stopped and disconnected, a fresh
node is created and started at `startOffset`, and `playbackStartTime` is set
to the context clock. -/
def playSafari (s : SafariState) (now : ℚ) : SafariState :=
  if s.snap.isMicMode ∨ s.decodedDuration = none then s
  else
    let s1 := if s.activeNode then
        { s with activeNode := false, liveNodes := s.liveNodes - 1 }
      else s
    { s1 with activeNode := true, liveNodes := s1.liveNodes + 1,
              playbackStartTime := now,
              snap := { s1.snap with isPlaying := true } }

/-- `pause()`, decode-buffer variant: a no-op in mic mode; with an active
node and a decoded buffer it snapshots
`clamp(startOffset + (now - playbackStartTime), 0, duration)` into
`startOffset` and stops the node; the snapshot always leaves
`isPlaying = false`. -/
def pauseSafari (s : SafariState) (now : ℚ) : SafariState :=
  if s.snap.isMicMode then s
  else
    let s1 :=
      match s.decodedDuration with
      | some dur =>
          if s.activeNode then
            { s with
              startOffset :=
                max 0 (min (s.startOffset + (now - s.playbackStartTime)) dur),
              activeNode := false, liveNodes := s.liveNodes - 1 }
          else s
      | none => s
    { s1 with snap := { s1.snap with isPlaying := false } }

/-- `seek(time)`, decode-buffer variant: a no-op in mic mode or without a
decoded buffer; otherwise clamps the target into `[0, duration]`, stops any
active node, stores the clamped target into `startOffset`, and re-enters
`play()` exactly when a node was active. -/
def seekSafari (s : SafariState) (now t : ℚ) : SafariState :=
  if s.snap.isMicMode then s
  else
    match s.decodedDuration with
    | none => s
    | some dur =>
        let newTime := max 0 (min t dur)
        let wasPlaying := s.activeNode
        let s1 := if s.activeNode then
            { s with activeNode := false, liveNodes := s.liveNodes - 1 }
          else s
        let s2 := { s1 with startOffset := newTime }
        if wasPlaying then playSafari s2 now
        else { s2 with snap := { s2.snap with currentTime := newTime,
                                              isPlaying := false } }

/-- The 50 ms `updateTime` interval body of the decode-buffer variant:
in mic mode it only zeroes the displayed time when nothing is loaded;
with an active node it publishes
`clamp(startOffset + (now - playbackStartTime), 0, duration)`;
with a buffer but no node and `isPlaying = false` it publishes
`startOffset`. -/
def updateTimeSafari (s : SafariState) (now : ℚ) : SafariState :=
  if s.snap.isMicMode then
    if s.decodedDuration = none ∧ s.currentAudioUrl = none then
      { s with snap := { s.snap with currentTime := 0, duration := 0 } }
    else s
  else
    match s.decodedDuration with
    | some dur =>
        if s.activeNode then
          { s with snap := { s.snap with
              currentTime :=
                max 0 (min (s.startOffset + (now - s.playbackStartTime)) dur),
              duration := dur } }
        else if ¬s.snap.isPlaying then
          { s with snap := { s.snap with currentTime := s.startOffset,
                                         duration := dur } }
        else s
    | none => s

/-- `setVolume(level)`, decode-buffer variant: clamps into `[0, 1]` and sets
the gain node's value. -/
def setVolumeSafari (s : SafariState) (level : ℚ) : SafariState :=
  { s with gainValue := max 0 (min 1 level) }

/-- `loadAudio(audioUrl)`, decode-buffer variant.  `result` is the
fetch-and-decode outcome.  The body records the url, stops an active mic and
any active buffer node, rewires gain → analyzer → destination, clears the
decoded buffer, then fetches; on failure the catch logs, clears the stored
url and resets the snapshot to a non-playing zeroed state; on success the
buffer is stored, `startOffset`, beat history and prev-beat time reset, the
snapshot reset, and `play()` invoked. -/
def loadAudioSafari (s : SafariState) (url : String) (now : ℚ)
    (result : Option ℚ) : SafariState :=
  let s0 := { s with currentAudioUrl := some url }
  let s1 := if s0.micActive then
      { s0 with micActive := false,
                snap := { s0.snap with isTurningOffMicMode := false } }
    else s0
  let s2 := if s1.activeNode then
      { s1 with activeNode := false, liveNodes := s1.liveNodes - 1 }
    else s1
  let s3 := { s2 with gainToAnalyzer := true, analyzerToDest := true,
                      decodedDuration := none }
  match result with
  | none =>
      { s3 with
          currentAudioUrl := none,
          snap := { s3.snap with isMicMode := false, isPlaying := false,
                                 duration := 0, currentTime := 0 } }
  | some dur =>
      let s4 :=
        { s3 with
            decodedDuration := some dur, startOffset := 0,
            beatState := { prevBeatTime := 0,
                           beatThreshold := s3.beatState.beatThreshold,
                           beatHistory := [] },
            snap := { s3.snap with isMicMode := false, isPlaying := false,
                                   duration := dur, currentTime := 0 } }
      playSafari s4 now

/-- `startMicrophoneInput()`, decode-buffer variant.  `granted` is the
`getUserMedia` outcome and `reload` the `loadAudio` outcome on the
denial-recovery path; the second component reports the user-facing alert.
The try block reads `wasFilePlaying` and `currentFileTime := startOffset`
(without adding the elapsed segment time), stops the active node, saves
`lastAudioStateRef` when a url is current, stops old mic tracks and unwires
gain → analyzer → destination; on grant the mic source feeds the analyzer
and the snapshot enters mic mode with `currentTime = 0`; on denial the catch
restores the saved session via `loadAudio` (which auto-plays), then resets
`startOffset` to the saved time and either re-`play()`s or marks the
snapshot paused at the saved time, and always alerts. -/
def startMicSafari (s : SafariState) (now : ℚ) (granted : Bool)
    (reload : Option ℚ) : SafariState × Bool :=
  let wasFilePlaying := s.activeNode
  let currentFileTime := s.startOffset
  let s1 := if s.activeNode then
      { s with activeNode := false, liveNodes := s.liveNodes - 1 }
    else s
  let s2 :=
    match s1.currentAudioUrl with
    | some u =>
        { s1 with
            lastAudioState := some { src := u, currentTime := currentFileTime,
                                     isPlaying := wasFilePlaying } }
    | none => s1
  let s3 := { s2 with micActive := false,
                      gainToAnalyzer := false, analyzerToDest := false }
  if granted then
    ({ s3 with micActive := true,
               snap := { s3.snap with isMicMode := true, isPlaying := true,
                                      currentTime := 0 } }, false)
  else
    match s3.lastAudioState with
    | some last =>
        if last.src ≠ "" then
          let s4 := loadAudioSafari { s3 with lastAudioState := none }
            last.src now reload
          let s5 :=
            match s4.decodedDuration with
            | some _ =>
                let s4a := { s4 with startOffset := last.currentTime }
                if last.isPlaying then playSafari s4a now
                else { s4a with snap := { s4a.snap with
                    currentTime := last.currentTime, isPlaying := false } }
            | none => s4
          (s5, true)
        else
          ({ s3 with snap := { s3.snap with isMicMode := false,
                                            isPlaying := false } }, true)
    | none =>
        ({ s3 with snap := { s3.snap with isMicMode := false,
                                          isPlaying := false } }, true)

/-- `stopMicrophoneInput()`, decode-buffer variant.  `reload` is the
`loadAudio` outcome for the saved src.  Mic tracks are stopped and the mic
source disconnected, gain → analyzer → destination rewired, the transitional
flag toggled when a mic was live, the snapshot leaves mic mode; then a saved
session with nonempty src is handed to `loadAudio` (its saved position and
play/pause flag are not used), otherwise the snapshot is just marked not
playing. -/
def stopMicSafari (s : SafariState) (now : ℚ) (reload : Option ℚ) :
    SafariState :=
  let shouldRestore := s.micActive
  let s1 := { s with micActive := false,
                     gainToAnalyzer := true, analyzerToDest := true }
  let s2 := if shouldRestore then
      { s1 with snap := { s1.snap with isTurningOffMicMode := false } }
    else s1
  let s3 := { s2 with snap := { s2.snap with isMicMode := false,
                                             isPlaying := false } }
  match s3.lastAudioState with
  | some last =>
      if last.src ≠ "" then
        loadAudioSafari { s3 with lastAudioState := none } last.src now reload
      else { s3 with snap := { s3.snap with isPlaying := false } }
  | none => { s3 with snap := { s3.snap with isPlaying := false } }

/-! ## Helper lemmas -/

lemma round_nonpos_of_nonpos {x : ℚ} (hx : x ≤ 0) : round x ≤ 0 := by
  rw [round_eq]
  have h1 : ⌊x + 1/2⌋ ≤ ⌊(1/2 : ℚ)⌋ := Int.floor_mono (by linarith)
  have h2 : ⌊(1/2 : ℚ)⌋ = 0 := by norm_num
  omega

/-- The decode-buffer variant's `avgInterval > 0` guard never changes the
BPM output: with a nonpositive average the streaming variant rounds a
nonpositive value (`60 / 0 = 0` here, `Infinity` in JavaScript), which the
`[50, 200]` range test rejects either way. -/
lemma computeBpm_eq_guarded (h : List ℚ) :
    computeBpm h = computeBpmGuarded h := by
  unfold computeBpm computeBpmGuarded
  split
  · by_cases havg : 0 < avgIntervalOf h
    · rw [if_pos havg]
    · rw [if_neg havg]
      have hle : avgIntervalOf h ≤ 0 := not_lt.1 havg
      have hdiv : (60 : ℚ) / avgIntervalOf h ≤ 0 := by
        rcases lt_or_eq_of_le hle with hlt | heq
        · exact le_of_lt (div_neg_of_pos_of_neg (by norm_num) hlt)
        · rw [heq, div_zero]
      have hr : round ((60 : ℚ) / avgIntervalOf h) ≤ 0 :=
        round_nonpos_of_nonpos hdiv
      rw [if_neg]
      intro hcon
      omega
  · rfl

lemma intervalsOf_length (l : List ℚ) :
    (intervalsOf l).length = l.length - 1 := by
  simp [intervalsOf]

lemma avgIntervalOf_const (l : List ℚ) (c : ℚ)
    (hlen : (intervalsOf l).length ≠ 0)
    (h : ∀ x ∈ intervalsOf l, x = c) : avgIntervalOf l = c := by
  unfold avgIntervalOf
  have hrep : intervalsOf l = List.replicate (intervalsOf l).length c :=
    List.eq_replicate_iff.2 ⟨rfl, h⟩
  rw [hrep]
  rw [List.sum_replicate, List.length_replicate, nsmul_eq_mul]
  have hne : ((intervalsOf l).length : ℚ) ≠ 0 := Nat.cast_ne_zero.2 hlen
  field_simp

/-! ## Claim theorems: feature extraction -/

/-- C10.  Variant equivalence of the per-frame feature extraction: for every
rolling state and every frame input, the streaming variant and the
decode-buffer variant produce the same output (frequency and time buffers,
volume, band energies, beat decision, BPM) and the same updated rolling
state (beat history, previous beat time, adaptive threshold); in particular
the decode-buffer variant's extra `avgInterval > 0` guard is redundant
(here for every rolling state, *a fortiori* under the beat-history
invariant). -/
theorem analyzeFrame_variant_equivalence :
    ∀ (s : BeatState) (inp : FrameInput),
      analyzeFrameStreaming s inp = analyzeFrameSafari s inp := by
  intro s inp
  simp only [analyzeFrameStreaming, analyzeFrameSafari, computeBpm_eq_guarded]

/-- C5.  BPM computation, both variants: a BPM value is produced only when
the beat history has strictly more than 3 entries, it is then
`round (60 / avgInterval)` and lies within `[50, 200]` (otherwise the
frame's bpm is `none`); and any history of more than 3 entries whose
consecutive inter-beat intervals are all exactly 0.6 s yields `bpm = 100`. -/
theorem computeBpm_characterization :
    ∀ (h : List ℚ) (b : ℤ),
      (computeBpm h = some b →
        3 < h.length ∧ b = round ((60 : ℚ) / avgIntervalOf h) ∧
          50 ≤ b ∧ b ≤ 200) ∧
      (computeBpmGuarded h = some b →
        3 < h.length ∧ b = round ((60 : ℚ) / avgIntervalOf h) ∧
          50 ≤ b ∧ b ≤ 200) ∧
      ((∀ x ∈ intervalsOf h, x = 3/5) → 3 < h.length →
        computeBpm h = some 100 ∧ computeBpmGuarded h = some 100) := by
  intro h b
  have hchar : computeBpm h = some b →
      3 < h.length ∧ b = round ((60 : ℚ) / avgIntervalOf h) ∧
        50 ≤ b ∧ b ≤ 200 := by
    unfold computeBpm
    split
    · split
      · intro hsome
        obtain rfl : round ((60 : ℚ) / avgIntervalOf h) = b :=
          Option.some.inj hsome
        refine ⟨by assumption, rfl, ?_, ?_⟩ <;> omega
      · intro hsome
        exact absurd hsome (by simp)
    · intro hsome
      exact absurd hsome (by simp)
  have hconst : (∀ x ∈ intervalsOf h, x = 3/5) → 3 < h.length →
      computeBpm h = some 100 := by
    intro hall hlen
    have hlen' : (intervalsOf h).length ≠ 0 := by
      rw [intervalsOf_length]
      omega
    have havg : avgIntervalOf h = 3/5 := avgIntervalOf_const h (3/5) hlen' hall
    have h100 : (60 : ℚ) / (3/5) = ((100 : ℤ) : ℚ) := by norm_num
    unfold computeBpm
    rw [if_pos hlen, havg, h100, round_intCast]
    norm_num
  refine ⟨hchar, ?_, fun hall hlen => ?_⟩
  · rw [← computeBpm_eq_guarded]
    exact hchar
  · have hc := hconst hall hlen
    exact ⟨hc, by rw [← computeBpm_eq_guarded]; exact hc⟩

/-- C5 witness: the characterization and the constant-0.6 s instance
evaluated at the concrete history `[0, 0.6, 1.2, 1.8]`. -/
theorem computeBpm_characterization_witness :
    computeBpm [0, 3/5, 6/5, 9/5] = some 100 ∧
    (∀ x ∈ intervalsOf [0, 3/5, 6/5, 9/5], x = 3/5) ∧
    3 < ([0, 3/5, 6/5, 9/5] : List ℚ).length ∧
    (3 < ([0, 3/5, 6/5, 9/5] : List ℚ).length ∧
      (100 : ℤ) = round ((60 : ℚ) / avgIntervalOf [0, 3/5, 6/5, 9/5]) ∧
      50 ≤ (100 : ℤ) ∧ (100 : ℤ) ≤ 200) ∧
    (computeBpm [0, 3/5, 6/5, 9/5] = some 100 ∧
      computeBpmGuarded [0, 3/5, 6/5, 9/5] = some 100) := by
  have hbpm : computeBpm [0, 3/5, 6/5, 9/5] = some 100 := by
    norm_num [computeBpm, avgIntervalOf, intervalsOf]
  have hall : ∀ x ∈ intervalsOf [0, 3/5, 6/5, 9/5], x = 3/5 := by
    norm_num [intervalsOf]
  refine ⟨hbpm, hall, by norm_num, ?_, ?_⟩
  · exact (computeBpm_characterization [0, 3/5, 6/5, 9/5] 100).1 hbpm
  · exact (computeBpm_characterization [0, 3/5, 6/5, 9/5] 100).2.2
      hall (by norm_num)

lemma analyzeFrame_beat_char (s : BeatState) (f : FrameInput) :
    ((analyzeFrameStreaming s f).1.beat = true ↔
      (bandsOf f.freq f.sampleRate f.fftSize).1 > s.beatThreshold ∧
        f.now - s.prevBeatTime > 3/10) ∧
    ((analyzeFrameStreaming s f).1.beat = true →
      (analyzeFrameStreaming s f).2.prevBeatTime = f.now) ∧
    ((analyzeFrameStreaming s f).1.beat = false →
      (analyzeFrameStreaming s f).2.prevBeatTime = s.prevBeatTime) ∧
    (analyzeFrameStreaming s f).2.beatHistory =
      (stepBeat s (bandsOf f.freq f.sampleRate f.fftSize).1 f.now).2.beatHistory := by
  simp only [analyzeFrameStreaming, stepBeat]
  split
  · simp_all
  · simp_all

lemma runAnalyze_spacing (fs : List FrameInput) :
    ∀ s : BeatState,
      (runAnalyze s fs).2.Chain' (fun a b => b - a > 3/10) ∧
      ∀ t ∈ (runAnalyze s fs).2, t - s.prevBeatTime > 3/10 := by
  induction fs with
  | nil => intro s; simp [runAnalyze]
  | cons f fs ih =>
      intro s
      obtain ⟨hiff, htrue, hfalse, _⟩ := analyzeFrame_beat_char s f
      simp only [runAnalyze]
      cases hbeat : (analyzeFrameStreaming s f).1.beat with
      | false =>
          simp only [Bool.false_eq_true, if_false, List.nil_append]
          obtain ⟨hchain, hmem⟩ := ih (analyzeFrameStreaming s f).2
          exact ⟨hchain, fun t ht => by
            have hm := hmem t ht
            rw [hfalse hbeat] at hm
            exact hm⟩
      | true =>
          simp only [if_true, List.singleton_append]
          obtain ⟨hchain, hmem⟩ := ih (analyzeFrameStreaming s f).2
          have hnow : (analyzeFrameStreaming s f).2.prevBeatTime = f.now :=
            htrue hbeat
          have hgap : f.now - s.prevBeatTime > 3/10 := (hiff.1 hbeat).2
          refine ⟨List.chain'_cons'.2 ⟨fun y hy => ?_, hchain⟩, fun t ht => ?_⟩
          · have hym : y ∈ (runAnalyze (analyzeFrameStreaming s f).2 fs).2 :=
              List.mem_of_mem_head? hy
            have := hmem y hym
            rw [hnow] at this
            exact this
          · rcases List.mem_cons.1 ht with rfl | hmem'
            · exact hgap
            · have := hmem t hmem'
              rw [hnow] at this
              linarith

/-- C4.  Minimum beat spacing: over any sequence of per-frame inputs the
accepted beat times are pairwise at least 0.3 audio-clock seconds apart
(consecutive ones strictly more), and on any single frame a beat is
accepted exactly when the frame's bass energy exceeds the adaptive
threshold and more than 0.3 s have elapsed since the previously accepted
beat. -/
theorem beat_minimum_spacing :
    ∀ (frames : List FrameInput) (s : BeatState) (f : FrameInput),
      (runAnalyze initialBeatState frames).2.Pairwise
        (fun a b => b - a ≥ 3/10) ∧
      ((analyzeFrameStreaming s f).1.beat = true ↔
        (bandsOf f.freq f.sampleRate f.fftSize).1 > s.beatThreshold ∧
          f.now - s.prevBeatTime > 3/10) := by
  intro frames s f
  constructor
  · have hchain := (runAnalyze_spacing frames initialBeatState).1
    haveI : IsTrans ℚ (fun a b => b - a > 3/10) :=
      ⟨fun a b c hab hbc => by
        have hab' : b - a > 3/10 := hab
        have hbc' : c - b > 3/10 := hbc
        show c - a > 3/10
        linarith⟩
    exact (List.chain'_iff_pairwise.1 hchain).imp le_of_lt
  · exact (analyzeFrame_beat_char s f).1

lemma append_chain_of_gap (l : List ℚ) (t : ℚ)
    (hch : l.Chain' (fun a b => b - a > 3/10))
    (hgap : t - l.getLastD 0 > 3/10) :
    (l ++ [t]).Chain' (fun a b => b - a > 3/10) := by
  refine List.chain'_append.2 ⟨hch, by simp, fun x hx y hy => ?_⟩
  have hy' : y = t := by
    have h := hy
    simp at h
    exact h.symm
  have hx' : l.getLastD 0 = x := by
    rw [List.getLastD_eq_getLast?]
    cases hxl : l.getLast? with
    | none => rw [hxl] at hx; simp at hx
    | some z =>
        rw [hxl] at hx
        simp at hx
        simp [hx]
  rw [hy', ← hx']
  exact hgap

lemma pushBeat_historyInv (l : List ℚ) (t : ℚ) (h : historyInv l) :
    historyInv (pushBeat l t) := by
  unfold pushBeat
  split
  · split
    · have hchain := append_chain_of_gap l t h.2 (by assumption)
      have hlen := h.1
      split
      · refine ⟨?_, hchain.tail⟩
        simp only [List.length_tail, List.length_append,
          List.length_singleton]
        omega
      · refine ⟨?_, hchain⟩
        simp only [List.length_append, List.length_singleton]
        simp only [List.length_append, List.length_singleton] at *
        omega
    · exact h
  · exact ⟨by simp, by simp⟩

lemma stepBeat_historyInv (s : BeatState) (b t : ℚ)
    (h : historyInv s.beatHistory) :
    historyInv (stepBeat s b t).2.beatHistory := by
  unfold stepBeat
  split
  · exact pushBeat_historyInv s.beatHistory t h
  · exact h

lemma runAnalyze_historyInv (fs : List FrameInput) :
    ∀ s : BeatState, historyInv s.beatHistory →
      historyInv (runAnalyze s fs).1.beatHistory := by
  induction fs with
  | nil => intro s h; simpa [runAnalyze] using h
  | cons f fs ih =>
      intro s h
      simp only [runAnalyze]
      refine ih (analyzeFrameStreaming s f).2 ?_
      have hrw := (analyzeFrame_beat_char s f).2.2.2
      rw [hrw]
      exact stepBeat_historyInv s _ f.now h

/-- C6.  Beat-history invariant: running any frame sequence from the initial
state leaves a history of at most 20 timestamps with consecutive entries
more than 0.3 s apart (hence strictly increasing); a single `stepBeat`
preserves that invariant; and whenever a frame changes a nonempty history,
the accepted time exceeds the last recorded entry by more than 0.3 s and the
new history is the appended list with the oldest entry dropped exactly when
the length would pass 20. -/
theorem beatHistory_invariant :
    ∀ (frames : List FrameInput) (s : BeatState) (b t last : ℚ),
      historyInv (runAnalyze initialBeatState frames).1.beatHistory ∧
      (historyInv s.beatHistory →
        historyInv (stepBeat s b t).2.beatHistory) ∧
      ((stepBeat s b t).2.beatHistory ≠ s.beatHistory →
        s.beatHistory.getLast? = some last →
        t - last > 3/10 ∧
        (stepBeat s b t).2.beatHistory =
          (if 20 < (s.beatHistory ++ [t]).length
           then (s.beatHistory ++ [t]).tail
           else s.beatHistory ++ [t])) := by
  intro frames s b t last
  refine ⟨?_, stepBeat_historyInv s b t, ?_⟩
  · refine runAnalyze_historyInv frames initialBeatState ?_
    constructor
    · simp [initialBeatState]
    · simp [initialBeatState]
  · intro hchange hlast
    have hne : s.beatHistory ≠ [] := by
      intro hnil
      rw [hnil] at hlast
      simp at hlast
    have h0 : 0 < s.beatHistory.length := List.length_pos.2 hne
    have hD : s.beatHistory.getLastD 0 = last := by
      rw [List.getLastD_eq_getLast?, hlast]
      rfl
    by_cases hc : b > s.beatThreshold ∧ t - s.prevBeatTime > 3/10
    · unfold stepBeat at hchange ⊢
      rw [if_pos hc] at hchange ⊢
      simp only at hchange ⊢
      unfold pushBeat at hchange ⊢
      rw [if_pos h0, hD] at hchange ⊢
      by_cases hgap : t - last > 3/10
      · rw [if_pos hgap]
        exact ⟨hgap, rfl⟩
      · rw [if_neg hgap] at hchange
        exact absurd rfl hchange
    · unfold stepBeat at hchange
      rw [if_neg hc] at hchange
      exact absurd rfl hchange

/-- C6 witness: the invariant facts evaluated at the singleton history
`[1]` with an accepted beat at `t = 2`. -/
theorem beatHistory_invariant_witness :
    historyInv (BeatState.mk 0 (3/20) [1]).beatHistory ∧
    (stepBeat (BeatState.mk 0 (3/20) [1]) 1 2).2.beatHistory ≠
      (BeatState.mk 0 (3/20) [1]).beatHistory ∧
    (BeatState.mk 0 (3/20) [1]).beatHistory.getLast? = some 1 ∧
    ((2 : ℚ) - 1 > 3/10 ∧
      (stepBeat (BeatState.mk 0 (3/20) [1]) 1 2).2.beatHistory =
        (if 20 < ((BeatState.mk 0 (3/20) [1]).beatHistory ++ [2]).length
         then ((BeatState.mk 0 (3/20) [1]).beatHistory ++ [2]).tail
         else (BeatState.mk 0 (3/20) [1]).beatHistory ++ [2])) := by
  have hchange : (stepBeat (BeatState.mk 0 (3/20) [1]) 1 2).2.beatHistory ≠
      (BeatState.mk 0 (3/20) [1]).beatHistory := by
    norm_num [stepBeat, pushBeat]
  have hlast : (BeatState.mk 0 (3/20) [1]).beatHistory.getLast? =
      some 1 := rfl
  refine ⟨by norm_num [historyInv], hchange, hlast, ?_⟩
  exact (beatHistory_invariant [] (BeatState.mk 0 (3/20) [1]) 1 2 1).2.2
    hchange hlast

lemma foldl_bandStep_zero (b1 b2 m1 m2 g1 g2 : ℤ) :
    ∀ (l : List (ℕ × ℕ)) (acc : (ℕ × ℕ) × (ℕ × ℕ) × (ℕ × ℕ)),
      (∀ p ∈ l, p.2 = 0) →
      (l.foldl (bandStep b1 b2 m1 m2 g1 g2) acc).1.1 = acc.1.1 ∧
      (l.foldl (bandStep b1 b2 m1 m2 g1 g2) acc).2.1.1 = acc.2.1.1 ∧
      (l.foldl (bandStep b1 b2 m1 m2 g1 g2) acc).2.2.1 = acc.2.2.1 := by
  intro l
  induction l with
  | nil => intro acc _; exact ⟨rfl, rfl, rfl⟩
  | cons p l ih =>
      intro acc hall
      have hp : p.2 = 0 := hall p (by simp)
      have hrest : ∀ q ∈ l, q.2 = 0 := fun q hq => hall q (by simp [hq])
      simp only [List.foldl_cons]
      have hstep : (bandStep b1 b2 m1 m2 g1 g2 acc p).1.1 = acc.1.1 ∧
          (bandStep b1 b2 m1 m2 g1 g2 acc p).2.1.1 = acc.2.1.1 ∧
          (bandStep b1 b2 m1 m2 g1 g2 acc p).2.2.1 = acc.2.2.1 := by
        unfold bandStep
        split_ifs <;> simp [hp]
      obtain ⟨ha, hb, hc⟩ := ih (bandStep b1 b2 m1 m2 g1 g2 acc p) hrest
      rw [ha, hb, hc]
      exact hstep

lemma bandsOf_zero (freq : List ℕ) (sr fs : ℚ) (h : ∀ x ∈ freq, x = 0) :
    bandsOf freq sr fs = (0, 0, 0) := by
  have henum : ∀ p ∈ freq.enum, p.2 = 0 := by
    intro p hp
    rw [List.mem_enum_iff_getElem?] at hp
    exact h p.2 (List.getElem?_mem hp)
  simp only [bandsOf, bandAccum]
  obtain ⟨ha, hb, hc⟩ := foldl_bandStep_zero ⌊(20 : ℚ) / (sr / fs)⌋
    ⌊(150 : ℚ) / (sr / fs)⌋ ⌊(150 : ℚ) / (sr / fs)⌋ ⌊(2000 : ℚ) / (sr / fs)⌋
    ⌊(2000 : ℚ) / (sr / fs)⌋ ⌊(20000 : ℚ) / (sr / fs)⌋ freq.enum
    ((0, 0), (0, 0), (0, 0)) henum
  rw [ha, hb, hc]
  unfold bandEnergy
  split_ifs <;> simp

/-- C9 counterexample: on an empty frequency buffer the frame volume is the
JavaScript `NaN` of `0/0` (modelled as `none`), not 0 as the claim states;
the band energies and beat are still 0 and `false`. -/
theorem degenerate_empty_volume_counterexample :
    (analyzeFrameStreaming initialBeatState
      { freq := [], time := [], sampleRate := 44100, fftSize := 2048,
        now := 1 }).1.volume = none ∧
    (none : Option ℚ) ≠ some 0 := by
  constructor
  · simp [analyzeFrameStreaming, volumeOf]
  · simp

/-- C9 amended.  Degenerate-input behaviour of the feature extraction: for a
nonempty all-zero frequency buffer (and a nonnegative adaptive threshold, as
always holds at runtime) the extractor yields `volume = 0`, zero band
energies and no beat; for an empty frequency buffer the band energies are 0
and the beat is `false`, but the volume is the `NaN` of `0/0` (modelled
`none`) rather than 0; and any band containing zero bins has energy 0. -/
theorem degenerate_inputs :
    ∀ (n m : ℕ) (s : BeatState) (sr fs now : ℚ) (tb : List ℕ),
      (0 < n → 0 ≤ s.beatThreshold →
        (analyzeFrameStreaming s
            { freq := List.replicate n 0, time := tb, sampleRate := sr,
              fftSize := fs, now := now }).1.volume = some 0 ∧
        (analyzeFrameStreaming s
            { freq := List.replicate n 0, time := tb, sampleRate := sr,
              fftSize := fs, now := now }).1.bassEnergy = 0 ∧
        (analyzeFrameStreaming s
            { freq := List.replicate n 0, time := tb, sampleRate := sr,
              fftSize := fs, now := now }).1.midEnergy = 0 ∧
        (analyzeFrameStreaming s
            { freq := List.replicate n 0, time := tb, sampleRate := sr,
              fftSize := fs, now := now }).1.highEnergy = 0 ∧
        (analyzeFrameStreaming s
            { freq := List.replicate n 0, time := tb, sampleRate := sr,
              fftSize := fs, now := now }).1.beat = false) ∧
      (0 ≤ s.beatThreshold →
        (analyzeFrameStreaming s
            { freq := [], time := tb, sampleRate := sr, fftSize := fs,
              now := now }).1.volume = none ∧
        (analyzeFrameStreaming s
            { freq := [], time := tb, sampleRate := sr, fftSize := fs,
              now := now }).1.bassEnergy = 0 ∧
        (analyzeFrameStreaming s
            { freq := [], time := tb, sampleRate := sr, fftSize := fs,
              now := now }).1.midEnergy = 0 ∧
        (analyzeFrameStreaming s
            { freq := [], time := tb, sampleRate := sr, fftSize := fs,
              now := now }).1.highEnergy = 0 ∧
        (analyzeFrameStreaming s
            { freq := [], time := tb, sampleRate := sr, fftSize := fs,
              now := now }).1.beat = false) ∧
      bandEnergy m 0 = 0 := by
  intro n m s sr fs now tb
  have hbandsRep : bandsOf (List.replicate n 0) sr fs = (0, 0, 0) :=
    bandsOf_zero _ sr fs (by simp)
  have hbandsNil : bandsOf ([] : List ℕ) sr fs = (0, 0, 0) :=
    bandsOf_zero _ sr fs (by simp)
  have hbeat : ∀ (freq : List ℕ),
      bandsOf freq sr fs = (0, 0, 0) → 0 ≤ s.beatThreshold →
      (analyzeFrameStreaming s
          { freq := freq, time := tb, sampleRate := sr, fftSize := fs,
            now := now }).1.beat = false := by
    intro freq hbands hth
    simp only [analyzeFrameStreaming, stepBeat, hbands]
    rw [if_neg]
    intro hcon
    have h0 : (0 : ℚ) > s.beatThreshold := hcon.1
    linarith
  refine ⟨fun hn hth => ?_, fun hth => ?_, ?_⟩
  · have hvol : volumeOf (List.replicate n 0) = some 0 := by
      unfold volumeOf
      rw [if_neg (by simp; omega)]
      congr 1
      simp
    refine ⟨?_, ?_, ?_, ?_, hbeat _ hbandsRep hth⟩ <;>
      simp [analyzeFrameStreaming, hbandsRep, hvol]
  · refine ⟨?_, ?_, ?_, ?_, hbeat _ hbandsNil hth⟩ <;>
      simp [analyzeFrameStreaming, hbandsNil, volumeOf]
  · unfold bandEnergy
    simp

/-- C9 witness: the amended degenerate-input facts evaluated at a 4-bin
all-zero buffer, the empty buffer and a 5-valued zero-bin band, at the
initial rolling state. -/
theorem degenerate_inputs_witness :
    0 < 4 ∧ 0 ≤ initialBeatState.beatThreshold ∧
    ((analyzeFrameStreaming initialBeatState
        { freq := List.replicate 4 0, time := [], sampleRate := 44100,
          fftSize := 2048, now := 1 }).1.volume = some 0 ∧
      (analyzeFrameStreaming initialBeatState
        { freq := List.replicate 4 0, time := [], sampleRate := 44100,
          fftSize := 2048, now := 1 }).1.bassEnergy = 0 ∧
      (analyzeFrameStreaming initialBeatState
        { freq := List.replicate 4 0, time := [], sampleRate := 44100,
          fftSize := 2048, now := 1 }).1.midEnergy = 0 ∧
      (analyzeFrameStreaming initialBeatState
        { freq := List.replicate 4 0, time := [], sampleRate := 44100,
          fftSize := 2048, now := 1 }).1.highEnergy = 0 ∧
      (analyzeFrameStreaming initialBeatState
        { freq := List.replicate 4 0, time := [], sampleRate := 44100,
          fftSize := 2048, now := 1 }).1.beat = false) ∧
    ((analyzeFrameStreaming initialBeatState
        { freq := [], time := [], sampleRate := 44100, fftSize := 2048,
          now := 1 }).1.volume = none ∧
      (analyzeFrameStreaming initialBeatState
        { freq := [], time := [], sampleRate := 44100, fftSize := 2048,
          now := 1 }).1.bassEnergy = 0 ∧
      (analyzeFrameStreaming initialBeatState
        { freq := [], time := [], sampleRate := 44100, fftSize := 2048,
          now := 1 }).1.midEnergy = 0 ∧
      (analyzeFrameStreaming initialBeatState
        { freq := [], time := [], sampleRate := 44100, fftSize := 2048,
          now := 1 }).1.highEnergy = 0 ∧
      (analyzeFrameStreaming initialBeatState
        { freq := [], time := [], sampleRate := 44100, fftSize := 2048,
          now := 1 }).1.beat = false) ∧
    bandEnergy 5 0 = 0 := by
  have hth : (0 : ℚ) ≤ initialBeatState.beatThreshold := by
    norm_num [initialBeatState]
  obtain ⟨h1, h2, h3⟩ := degenerate_inputs 4 5 initialBeatState 44100 2048 1 []
  exact ⟨by norm_num, hth, h1 (by norm_num) hth, h2 hth, h3⟩

/-! ## Claim theorems: playback controller -/

/-- A file session in the streaming variant, paused at 10 s of a 60 s
track. -/
def pausedFileStreaming : StreamingState :=
  { elem := { src := "song.mp3", currentTime := 10, duration := 60,
              paused := true, volume := 1 },
    sourceConnected := true, analyzerToDest := true, micActive := false,
    lastAudioState := none,
    snap := { isMicMode := false, isPlaying := false,
              isTurningOffMicMode := false },
    beatState := initialBeatState }

/-- The same streaming file session, playing. -/
def playingFileStreaming : StreamingState :=
  { pausedFileStreaming with
      elem := { pausedFileStreaming.elem with paused := false },
      snap := { pausedFileStreaming.snap with isPlaying := true } }

/-- A file session in the decode-buffer variant, paused at 10 s of a 60 s
track. -/
def pausedFileSafari : SafariState :=
  { decodedDuration := some 60, activeNode := false, liveNodes := 0,
    playbackStartTime := 0, startOffset := 10,
    currentAudioUrl := some "song.mp3", micActive := false,
    gainToAnalyzer := true, analyzerToDest := true, gainValue := 1,
    lastAudioState := none,
    snap := { isMicMode := false, isPlaying := false,
              isTurningOffMicMode := false, currentTime := 10,
              duration := 60 },
    beatState := initialBeatState }

/-- The same decode-buffer file session, playing: its current segment was
scheduled from offset 10 at context time 100. -/
def playingFileSafari : SafariState :=
  { pausedFileSafari with
      activeNode := true, liveNodes := 1, playbackStartTime := 100,
      snap := { pausedFileSafari.snap with isPlaying := true } }

/-- An idle decode-buffer state: nothing loaded, no saved session. -/
def emptySafari : SafariState :=
  { decodedDuration := none, activeNode := false, liveNodes := 0,
    playbackStartTime := 0, startOffset := 0, currentAudioUrl := none,
    micActive := false, gainToAnalyzer := true, analyzerToDest := true,
    gainValue := 1, lastAudioState := none,
    snap := { isMicMode := false, isPlaying := false,
              isTurningOffMicMode := false, currentTime := 0,
              duration := 0 },
    beatState := initialBeatState }

/-- C1.  The round trip of source switching does not restore the paused
file session: starting from a session paused at 10 s, a granted
`startMicrophoneInput()` followed by `stopMicrophoneInput()` (with the
reload succeeding) ends with the streaming variant playing at 10 s
(`loadAudio` auto-plays and the paused state is never reinstated) and with
the decode-buffer variant playing at 0 s (`stopMicrophoneInput` reloads the
saved src but ignores the saved position and play/pause flag), not paused
at 10 s as specified. -/
theorem micRoundTrip_eval :
    pausedFileStreaming.elem.paused = true ∧
    pausedFileStreaming.elem.currentTime = 10 ∧
    pausedFileSafari.activeNode = false ∧
    pausedFileSafari.startOffset = 10 ∧
    (stopMicStreaming (startMicStreaming pausedFileStreaming true).1
        (some 60)).elem.src = "song.mp3" ∧
    (stopMicStreaming (startMicStreaming pausedFileStreaming true).1
        (some 60)).elem.currentTime = 10 ∧
    (stopMicStreaming (startMicStreaming pausedFileStreaming true).1
        (some 60)).elem.paused = false ∧
    (stopMicSafari (startMicSafari pausedFileSafari 100 true (some 60)).1
        200 (some 60)).snap.isPlaying = true ∧
    (stopMicSafari (startMicSafari pausedFileSafari 100 true (some 60)).1
        200 (some 60)).activeNode = true ∧
    (stopMicSafari (startMicSafari pausedFileSafari 100 true (some 60)).1
        200 (some 60)).startOffset = 0 := by
  decide

/-- C2 counterexample: a failing `loadAudio` in the decode-buffer variant
does not leave the prior playback state intact — starting from a playing
session with a decoded 60 s buffer, a failed load clears the decoded
payload, stops the node and resets the published snapshot. -/
theorem loadAudio_error_counterexample :
    playingFileSafari.decodedDuration = some 60 ∧
    playingFileSafari.snap.duration = 60 ∧
    playingFileSafari.snap.isPlaying = true ∧
    playingFileSafari.activeNode = true ∧
    (loadAudioSafari playingFileSafari "bad.mp3" 105 none).decodedDuration
      = none ∧
    (loadAudioSafari playingFileSafari "bad.mp3" 105 none).snap.duration
      = 0 ∧
    (loadAudioSafari playingFileSafari "bad.mp3" 105 none).snap.isPlaying
      = false ∧
    (loadAudioSafari playingFileSafari "bad.mp3" 105 none).activeNode
      = false := by
  decide

/-- C2 amended.  `loadAudio` error behaviour: the error is only logged,
never thrown (the operations return normally), but the prior state is not
left intact.  In the streaming variant the old element keeps its src,
position and duration and the saved session is kept, but the source node is
disconnected and the element is paused (when it had a src).  In the
decode-buffer variant the decoded payload, the stored url and the active
node are cleared and the published snapshot is reset to a non-playing
zeroed state. -/
theorem loadAudio_error_behavior :
    ∀ (sS : StreamingState) (sF : SafariState) (url : String) (now : ℚ),
      (loadAudioStreaming sS url none).elem.src = sS.elem.src ∧
      (loadAudioStreaming sS url none).elem.currentTime =
        sS.elem.currentTime ∧
      (loadAudioStreaming sS url none).elem.duration = sS.elem.duration ∧
      (loadAudioStreaming sS url none).sourceConnected = false ∧
      (loadAudioStreaming sS url none).lastAudioState = sS.lastAudioState ∧
      (sS.elem.src ≠ "" →
        (loadAudioStreaming sS url none).elem.paused = true) ∧
      (loadAudioSafari sF url now none).decodedDuration = none ∧
      (loadAudioSafari sF url now none).currentAudioUrl = none ∧
      (loadAudioSafari sF url now none).activeNode = false ∧
      (loadAudioSafari sF url now none).snap.isPlaying = false ∧
      (loadAudioSafari sF url now none).snap.currentTime = 0 ∧
      (loadAudioSafari sF url now none).snap.duration = 0 := by
  intro sS sF url now
  simp only [loadAudioStreaming, loadAudioSafari]
  split_ifs <;> simp_all

/-- C2 witness: the error behaviour evaluated on the playing file sessions
with a failing url. -/
theorem loadAudio_error_behavior_witness :
    playingFileStreaming.elem.src ≠ "" ∧
    (loadAudioStreaming playingFileStreaming "bad.mp3" none).elem.paused
      = true ∧
    (loadAudioStreaming playingFileStreaming "bad.mp3" none).elem.currentTime
      = playingFileStreaming.elem.currentTime ∧
    (loadAudioStreaming playingFileStreaming "bad.mp3"
        none).sourceConnected = false ∧
    (loadAudioSafari playingFileSafari "bad.mp3" 105 none).decodedDuration
      = none := by
  have h := loadAudio_error_behavior playingFileStreaming playingFileSafari
    "bad.mp3" 105
  have hsrc : playingFileStreaming.elem.src ≠ "" := by decide
  exact ⟨hsrc, h.2.2.2.2.2.1 hsrc, h.2.1, h.2.2.2.1, h.2.2.2.2.2.2.1⟩

/-- C3 counterexample: with a segment playing from offset 10 scheduled at
context time 100, at context time 105 the computed current time is 15, yet
a granted `startMicrophoneInput()` leaves `startOffset` at 10 and saves 10
(not 15) as the resumption position — the switch to microphone input does
not store the computed current time before discarding the segment. -/
theorem manualClock_micSwitch_counterexample :
    playingFileSafari.startOffset +
      (105 - playingFileSafari.playbackStartTime) = 15 ∧
    ((startMicSafari playingFileSafari 105 true (some 60)).1).startOffset
      = 10 ∧
    ((startMicSafari playingFileSafari 105 true (some 60)).1).lastAudioState
      = some { src := "song.mp3", currentTime := 10, isPlaying := true } ∧
    (10 : ℚ) ≠ 15 := by
  refine ⟨?_, by decide, by decide, by norm_num⟩
  norm_num [playingFileSafari, pausedFileSafari]

/-- C3 amended.  Manual clock of the decode-buffer variant: while a segment
is active the reported current time is exactly
`clamp(startOffset + (now - playbackStartTime), 0, duration)`; `pause`
stores that computed current time into `startOffset` before discarding the
segment; but `seek` stores the clamped seek target (not the computed
current time), and a granted switch to microphone input leaves
`startOffset` unchanged, saving the stale segment-start offset as the
resumption position. -/
theorem manualClock_behavior :
    ∀ (s : SafariState) (now t dur : ℚ) (r : Option ℚ),
      (s.snap.isMicMode = false → s.activeNode = true →
        s.decodedDuration = some dur →
        (updateTimeSafari s now).snap.currentTime =
          max 0 (min (s.startOffset + (now - s.playbackStartTime)) dur)) ∧
      (s.snap.isMicMode = false → s.activeNode = true →
        s.decodedDuration = some dur →
        (pauseSafari s now).startOffset =
          max 0 (min (s.startOffset + (now - s.playbackStartTime)) dur)) ∧
      (s.snap.isMicMode = false → s.decodedDuration = some dur →
        (seekSafari s now t).startOffset = max 0 (min t dur)) ∧
      (startMicSafari s now true r).1.startOffset = s.startOffset := by
  intro s now t dur r
  refine ⟨fun hmic hact hdur => ?_, fun hmic hact hdur => ?_,
    fun hmic hdur => ?_, ?_⟩
  · simp [updateTimeSafari, hmic, hact, hdur]
  · simp [pauseSafari, hmic, hact, hdur]
  · simp only [seekSafari, hmic, hdur]
    simp only [Bool.false_eq_true, if_false]
    cases hact : s.activeNode with
    | false => simp [hact]
    | true =>
        simp only [hact, if_true]
        simp [playSafari, hmic, hdur]
  · simp only [startMicSafari]
    cases hact : s.activeNode with
    | false =>
        simp only [hact, Bool.false_eq_true, if_false]
        cases s.currentAudioUrl <;> simp
    | true =>
        simp only [hact, if_true]
        cases s.currentAudioUrl <;> simp

/-- C3 witness: the manual-clock facts evaluated on the playing
decode-buffer session (offset 10 scheduled at 100) at context time 105 with
a seek target of 70 on the 60 s track. -/
theorem manualClock_behavior_witness :
    playingFileSafari.snap.isMicMode = false ∧
    playingFileSafari.activeNode = true ∧
    playingFileSafari.decodedDuration = some 60 ∧
    (updateTimeSafari playingFileSafari 105).snap.currentTime =
      max 0 (min (playingFileSafari.startOffset +
        (105 - playingFileSafari.playbackStartTime)) 60) ∧
    (pauseSafari playingFileSafari 105).startOffset =
      max 0 (min (playingFileSafari.startOffset +
        (105 - playingFileSafari.playbackStartTime)) 60) ∧
    (seekSafari playingFileSafari 105 70).startOffset =
      max 0 (min 70 60) ∧
    (startMicSafari playingFileSafari 105 true (some 60)).1.startOffset =
      playingFileSafari.startOffset := by
  obtain ⟨h1, h2, h3, h4⟩ :=
    manualClock_behavior playingFileSafari 105 70 60 (some 60)
  exact ⟨by decide, by decide, by decide,
    h1 (by decide) (by decide) (by decide),
    h2 (by decide) (by decide) (by decide),
    h3 (by decide) (by decide), h4⟩

/-- C7.  Seek semantics in both variants: the target is clamped into
`[0, duration]` (in the streaming variant by the element's `currentTime`
setter, per the HTML media seek algorithm); while playing, playback
restarts from the clamped position with exactly one active source
afterward (the streaming element keeps playing, the decode-buffer variant
ends with one live buffer node scheduled at the clamped offset); while
paused, only the stored position is updated and playback is not started. -/
theorem seek_semantics :
    ∀ (sS : StreamingState) (sF sP : SafariState) (now t dur : ℚ),
      (seekStreaming sS t).elem.currentTime =
        max 0 (min t sS.elem.duration) ∧
      (seekStreaming sS t).elem.paused = sS.elem.paused ∧
      (seekStreaming sS t).sourceConnected = sS.sourceConnected ∧
      (sF.snap.isMicMode = false → sF.decodedDuration = some dur →
        sF.activeNode = true → sF.liveNodes = 1 →
        (seekSafari sF now t).startOffset = max 0 (min t dur) ∧
        (seekSafari sF now t).activeNode = true ∧
        (seekSafari sF now t).liveNodes = 1 ∧
        (seekSafari sF now t).playbackStartTime = now ∧
        (seekSafari sF now t).snap.isPlaying = true) ∧
      (sP.snap.isMicMode = false → sP.decodedDuration = some dur →
        sP.activeNode = false →
        (seekSafari sP now t).startOffset = max 0 (min t dur) ∧
        (seekSafari sP now t).activeNode = false ∧
        (seekSafari sP now t).liveNodes = sP.liveNodes ∧
        (seekSafari sP now t).snap.isPlaying = false ∧
        (seekSafari sP now t).snap.currentTime = max 0 (min t dur)) := by
  intro sS sF sP now t dur
  refine ⟨rfl, rfl, rfl, fun hmic hdur hact hlive => ?_,
    fun hmic hdur hact => ?_⟩
  · simp only [seekSafari, hmic, hdur, hact]
    simp [playSafari, hmic, hdur, hlive]
  · simp [seekSafari, hmic, hdur, hact]

/-- C7 witness: seek evaluated on the concrete playing and paused sessions
with target 70 on a 60 s track (clamping to 60). -/
theorem seek_semantics_witness :
    (seekStreaming playingFileStreaming 70).elem.currentTime =
      max 0 (min 70 playingFileStreaming.elem.duration) ∧
    (seekStreaming playingFileStreaming 70).elem.paused =
      playingFileStreaming.elem.paused ∧
    playingFileSafari.snap.isMicMode = false ∧
    playingFileSafari.decodedDuration = some 60 ∧
    playingFileSafari.activeNode = true ∧
    playingFileSafari.liveNodes = 1 ∧
    ((seekSafari playingFileSafari 105 70).startOffset =
        max 0 (min 70 60) ∧
      (seekSafari playingFileSafari 105 70).activeNode = true ∧
      (seekSafari playingFileSafari 105 70).liveNodes = 1 ∧
      (seekSafari playingFileSafari 105 70).playbackStartTime = 105 ∧
      (seekSafari playingFileSafari 105 70).snap.isPlaying = true) ∧
    pausedFileSafari.activeNode = false ∧
    ((seekSafari pausedFileSafari 105 70).startOffset =
        max 0 (min 70 60) ∧
      (seekSafari pausedFileSafari 105 70).activeNode = false ∧
      (seekSafari pausedFileSafari 105 70).liveNodes =
        pausedFileSafari.liveNodes ∧
      (seekSafari pausedFileSafari 105 70).snap.isPlaying = false ∧
      (seekSafari pausedFileSafari 105 70).snap.currentTime =
        max 0 (min 70 60)) := by
  obtain ⟨h1, h2, h3, h4, h5⟩ :=
    seek_semantics playingFileStreaming playingFileSafari pausedFileSafari
      105 70 60
  exact ⟨h1, h2, by decide, by decide, by decide, by decide,
    h4 (by decide) (by decide) (by decide) (by decide), by decide,
    h5 (by decide) (by decide) (by decide)⟩

/-- C8 counterexample: in the streaming variant a denied
`startMicrophoneInput()` on a playing file session surfaces the alert but
does not restore the session — the element is left paused with its source
disconnected and the saved session still pending, contradicting the claim
that both variants restore the previous file session. -/
theorem micDenial_counterexample :
    playingFileStreaming.elem.paused = false ∧
    (startMicStreaming playingFileStreaming false).2 = true ∧
    (startMicStreaming playingFileStreaming false).1.elem.paused = true ∧
    (startMicStreaming playingFileStreaming false).1.sourceConnected
      = false ∧
    (startMicStreaming playingFileStreaming false).1.lastAudioState =
      some { src := "song.mp3", currentTime := 10, isPlaying := true } := by
  decide

set_option maxHeartbeats 1000000 in
/-- C8 amended.  Microphone-denial recovery: both variants surface the
user-facing alert, but only the decode-buffer variant restores.  The
streaming variant leaves the element paused (src and position kept) with
the source disconnected and the saved session pending.  The decode-buffer
variant, when a file url is current and its reload succeeds, reloads the
same source, restores the play/pause flag and sets `startOffset` to the
saved (segment-start) position; with no current url and no pending saved
session it ends idle: mic off, not playing. -/
theorem micDenial_behavior :
    ∀ (sS : StreamingState) (sF sN : SafariState) (now dur : ℚ)
      (u : String),
      ((startMicStreaming sS false).2 = true ∧
        (startMicStreaming sS false).1.elem.src = sS.elem.src ∧
        (startMicStreaming sS false).1.elem.currentTime =
          sS.elem.currentTime ∧
        (startMicStreaming sS false).1.elem.paused = true ∧
        (startMicStreaming sS false).1.sourceConnected = false ∧
        (startMicStreaming sS false).1.micActive = false ∧
        (startMicStreaming sS false).1.lastAudioState =
          some { src := sS.elem.src, currentTime := sS.elem.currentTime,
                 isPlaying := !sS.elem.paused }) ∧
      (sF.currentAudioUrl = some u → u ≠ "" →
        (startMicSafari sF now false (some dur)).2 = true ∧
        (startMicSafari sF now false (some dur)).1.currentAudioUrl
          = some u ∧
        (startMicSafari sF now false (some dur)).1.decodedDuration
          = some dur ∧
        (startMicSafari sF now false (some dur)).1.startOffset =
          sF.startOffset ∧
        (startMicSafari sF now false (some dur)).1.snap.isPlaying =
          sF.activeNode ∧
        (startMicSafari sF now false (some dur)).1.snap.isMicMode
          = false) ∧
      (sN.currentAudioUrl = none → sN.lastAudioState = none →
        (startMicSafari sN now false (some dur)).2 = true ∧
        (startMicSafari sN now false (some dur)).1.snap.isMicMode
          = false ∧
        (startMicSafari sN now false (some dur)).1.snap.isPlaying
          = false ∧
        (startMicSafari sN now false (some dur)).1.micActive = false) := by
  intro sS sF sN now dur u
  refine ⟨⟨rfl, rfl, rfl, rfl, rfl, rfl, rfl⟩,
    fun hurl hu => ?_, fun hurl hlast => ?_⟩
  · obtain ⟨dd, an, ln, pst, so, cu, mic, g2a, a2d, gv, las, snp, bs⟩ := sF
    simp only at hurl
    subst hurl
    cases an <;> cases mic <;>
      simp_all [startMicSafari, loadAudioSafari, playSafari]
  · obtain ⟨dd, an, ln, pst, so, cu, mic, g2a, a2d, gv, las, snp, bs⟩ := sN
    simp only at hurl hlast
    subst hurl
    subst hlast
    cases an <;> cases mic <;> simp [startMicSafari]

/-- C8 witness: the denial behaviour evaluated on the playing streaming
session, the playing decode-buffer session (url present, reload succeeds)
and an empty decode-buffer state. -/
theorem micDenial_behavior_witness :
    playingFileSafari.currentAudioUrl = some "song.mp3" ∧
    "song.mp3" ≠ "" ∧
    ((startMicStreaming playingFileStreaming false).2 = true ∧
      (startMicStreaming playingFileStreaming false).1.elem.paused
        = true) ∧
    ((startMicSafari playingFileSafari 105 false (some 60)).2 = true ∧
      (startMicSafari playingFileSafari 105 false
          (some 60)).1.currentAudioUrl = some "song.mp3" ∧
      (startMicSafari playingFileSafari 105 false
          (some 60)).1.startOffset = playingFileSafari.startOffset ∧
      (startMicSafari playingFileSafari 105 false
          (some 60)).1.snap.isPlaying = playingFileSafari.activeNode) ∧
    (emptySafari.currentAudioUrl = none ∧
      emptySafari.lastAudioState = none ∧
      (startMicSafari emptySafari 105 false (some 60)).2 = true ∧
      (startMicSafari emptySafari 105 false (some 60)).1.snap.isPlaying
        = false ∧
      (startMicSafari emptySafari 105 false (some 60)).1.micActive
        = false) := by
  obtain ⟨h1, h2, h3⟩ :=
    micDenial_behavior playingFileStreaming playingFileSafari emptySafari
      105 60 "song.mp3"
  have hurl : playingFileSafari.currentAudioUrl = some "song.mp3" := by
    decide
  have hu : "song.mp3" ≠ "" := by decide
  have hn1 : emptySafari.currentAudioUrl = none := by decide
  have hn2 : emptySafari.lastAudioState = none := by decide
  obtain ⟨hb1, hb2, hb3, hb4, hb5, hb6⟩ := h2 hurl hu
  obtain ⟨hc1, hc2, hc3, hc4⟩ := h3 hn1 hn2
  exact ⟨hurl, hu, ⟨h1.1, h1.2.2.2.1⟩, ⟨hb1, hb2, hb4, hb5⟩,
    ⟨hn1, hn2, hc1, hc3, hc4⟩⟩

end Sonovia
